/-
Verification of the memory-palace core against its specification.

The Python sources are shallowly embedded: pure string processing becomes
Lean functions on `String`/`List Char`; the database is a `List` of rows;
every HTTP interaction with the model server is an oracle parameter
(`Option`/`Except`/functions from attempt index to outcome); Python floats
are modelled as exact rationals (`ℚ`), with real numbers (`ℝ`) used only
where the source takes square roots (cosine similarity).

Layout: definitions first (grouped by source file), then helper lemmas,
then one theorem per claim with its witness or counterexample.
-/
import Mathlib

namespace MemoryPalace

/-! ## Python string primitives

Small executable models of the Python `str` operations the sources use.
They operate on `String.data` (`List Char`) so that proofs reduce well.
Unicode fidelity is limited to what the inputs exercise (ASCII). -/

/-- Python `str.strip()`: drop leading and trailing whitespace. -/
def pyStrip (s : String) : String :=
  ⟨((s.data.dropWhile Char.isWhitespace).reverse.dropWhile Char.isWhitespace).reverse⟩

/-- Python `str.lower()` (ASCII case folding, as the inputs are ASCII). -/
def pyLower (s : String) : String :=
  ⟨s.data.map Char.toLower⟩

/-- Python `str.rstrip(chars)`: drop trailing characters drawn from `cs`. -/
def pyRstrip (s : String) (cs : List Char) : String :=
  ⟨(s.data.reverse.dropWhile (cs.contains ·)).reverse⟩

/-- Python `str.strip(chars)`: drop the characters of `cs` from both ends. -/
def pyStripChars (s : String) (cs : List Char) : String :=
  ⟨((s.data.dropWhile (cs.contains ·)).reverse.dropWhile (cs.contains ·)).reverse⟩

/-- Helper for Python `str.split()` (split on whitespace runs, no empties). -/
def wordsAux : List Char → List Char → List (List Char)
  | [], acc => if acc.isEmpty then [] else [acc.reverse]
  | c :: cs, acc =>
    if c.isWhitespace then
      if acc.isEmpty then wordsAux cs [] else acc.reverse :: wordsAux cs []
    else wordsAux cs (c :: acc)

/-- Python `str.split()` with no argument. -/
def pySplitWs (s : String) : List String :=
  (wordsAux s.data []).map (⟨·⟩)

/-- Python `sub in s` on strings: substring containment. -/
def pyContains (s sub : String) : Bool :=
  s.data.tails.any (fun t => sub.data.isPrefixOf t)

/-- Python `str.startswith(prefix)`. -/
def pyStartsWith (s pre : String) : Bool :=
  pre.data.isPrefixOf s.data

/-- Python `str.splitlines()` restricted to `\n` separators (the only line
separator the model responses contain). -/
def pySplitLines (s : String) : List String :=
  (s.data.splitOn '\n').map (⟨·⟩)

/-- Python `s.split(sep, 1)` for a single-character separator: the part
before the first `sep` and everything after it. Assumes `sep ∈ s` (the
callers check `"|" in line` first). -/
def pySplitOnce (s : String) (sep : Char) : String × String :=
  (⟨s.data.takeWhile (· ≠ sep)⟩, ⟨(s.data.dropWhile (· ≠ sep)).drop 1⟩)

/-- Python `int(s)`: optional surrounding whitespace, optional sign, at
least one digit (digit-group underscores are not modelled; no caller
produces them). Returns `none` where Python raises `ValueError`. -/
def pyParseInt (s : String) : Option Int :=
  let t := (pyStrip s).data
  let core : List Char → Option Nat := fun ds =>
    if ds.isEmpty ∨ ¬ ds.all Char.isDigit then none
    else some (ds.foldl (fun n c => 10 * n + (c.toNat - 48)) 0)
  match t with
  | '+' :: ds => (core ds).map Int.ofNat
  | '-' :: ds => (core ds).map (fun n => -(n : Int))
  | ds => (core ds).map Int.ofNat

/-- Python truthiness of an optional string (`None` and `""` are falsy). -/
def pyTruthyStr : Option String → Bool
  | none => false
  | some s => s ≠ ""

/-! ## llm.py — edge-type classification

`VALID_EDGE_TYPES`, `_EDGE_TYPE_ALIASES`, `_normalize_edge_type`,
`classify_edge_type`, `classify_edge_types_batch`,
`_classify_batch_chunk` and `_parse_batch_classifications`.
The HTTP call of each generation request is an oracle:
`Except Unit String` is the request outcome (`error` for a raised
`RequestException`/`KeyError`/`ValueError`, `ok raw` for the string
`data.get("response", "")`). -/

/-- `VALID_EDGE_TYPES` (a Python set; listed in literal order — iteration
order only matters for the fuzzy prefix match, where at most one valid
type can match any ≥ 4-character prefix, so the order is immaterial). -/
def VALID_EDGE_TYPES : List String :=
  ["relates_to", "supersedes", "derived_from",
   "contradicts", "exemplifies", "refines"]

/-- `_EDGE_TYPE_ALIASES`. -/
def EDGE_TYPE_ALIASES : List (String × String) :=
  [("relates", "relates_to"),
   ("relates_to", "relates_to"),
   ("supersedes", "supersedes"),
   ("supersede", "supersedes"),
   ("derived_from", "derived_from"),
   ("derives_from", "derived_from"),
   ("derives", "derived_from"),
   ("derived", "derived_from"),
   ("contradicts", "contradicts"),
   ("contradict", "contradicts"),
   ("contradiction", "contradicts"),
   ("exemplifies", "exemplifies"),
   ("exemplify", "exemplifies"),
   ("example", "exemplifies"),
   ("refines", "refines"),
   ("refine", "refines"),
   ("refined", "refines")]

/-- `_normalize_edge_type(raw)`. -/
def normalize_edge_type (raw : String) : String :=
  let cleaned := pyRstrip (pyLower (pyStrip raw)) ['.', ',', ';', ':', '!', '?']
  let first_word := (pySplitWs cleaned).headD ""
  let resolved :=
    match EDGE_TYPE_ALIASES.lookup first_word with
    | some r => r
    | none =>
      if VALID_EDGE_TYPES.contains first_word then first_word
      else
        match VALID_EDGE_TYPES.find?
            (fun valid => pyStartsWith valid first_word && decide (4 ≤ first_word.length)) with
        | some valid => valid
        | none => "relates_to"
  if resolved = "supersedes" then "contradicts" else resolved

/-- `classify_edge_type(subject_a, subject_b, model)`, over the resolved
classification model (`none` when `_detect_classification_model` found
nothing) and the generation-request outcome. The subjects only affect the
prompt text, which the result does not depend on. -/
def classify_edge_type (model : Option String) (outcome : Except Unit String) : String :=
  match model with
  | none => "relates_to"
  | some _ =>
    match outcome with
    | .error _ => "relates_to"
    | .ok raw => normalize_edge_type raw

/-- Insert-or-overwrite on an association list, mirroring Python
`dict.__setitem__` (an existing key keeps its position). -/
def dictInsert (d : List (Int × String)) (k : Int) (v : String) : List (Int × String) :=
  if (d.lookup k).isSome then d.map (fun p => if p.1 == k then (k, v) else p)
  else d ++ [(k, v)]

/-- Python `results.update(chunk_results)`. -/
def dictUpdate (d news : List (Int × String)) : List (Int × String) :=
  news.foldl (fun acc p => dictInsert acc p.1 p.2) d

/-- One iteration of the `_parse_batch_classifications` line loop. -/
def parseLine (valid_ids : List Int) (acc : List (Int × String)) (line₀ : String) :
    List (Int × String) :=
  let line := pyStrip line₀
  if line = "" ∨ ¬ line.data.contains '|' then acc
  else
    let parts := pySplitOnce line '|'
    let id_str := pyStripChars (pyStrip parts.1) ['[', ']', '#']
    let type_str := pyStrip parts.2
    match pyParseInt id_str with
    | none => acc
    | some tid =>
      if ¬ valid_ids.contains tid then acc
      else dictInsert acc tid (normalize_edge_type type_str)

/-- `_parse_batch_classifications(raw, targets)`. -/
def parse_batch_classifications (raw : String) (targets : List (Int × String)) :
    List (Int × String) :=
  (pySplitLines (pyStrip raw)).foldl (parseLine (targets.map (·.1))) []

/-- `_classify_batch_chunk(new_subject, targets, model)`: one generation
request per chunk; a raised exception yields `{}`. -/
def classify_batch_chunk (targets : List (Int × String))
    (outcome : Except Unit String) : List (Int × String) :=
  match outcome with
  | .error _ => []
  | .ok raw => parse_batch_classifications raw targets

/-- `targets[i:i+batch_size]` chunking (`batch_size ≥ 1`; the source
default is 40). -/
def chunkListAux (bs : Nat) : Nat → List (Int × String) → List (List (Int × String))
  | 0, _ => []
  | _, [] => []
  | fuel + 1, x :: xs => (x :: xs.take (bs - 1)) :: chunkListAux bs fuel (xs.drop (bs - 1))

/-- `targets[i:i+batch_size]` chunking of the `range(0, len(targets), batch_size)`
loop, via a structural worker with fuel `targets.length` (every call has
`batch_size ≥ 1`, so each chunk consumes at least one element). -/
def chunkList (bs : Nat) (l : List (Int × String)) : List (List (Int × String)) :=
  chunkListAux bs l.length l

/-- One iteration of the chunk loop of `classify_edge_types_batch`
(`results.update(chunk_results)` on the i-th chunk). -/
def chunkStep (chunkOutcomes : Nat → Except Unit String)
    (acc : List (Int × String)) (ci : List (Int × String) × Nat) :
    List (Int × String) :=
  dictUpdate acc (classify_batch_chunk ci.1 (chunkOutcomes ci.2))

/-- One iteration of the fill loop of `classify_edge_types_batch`
(`if tid not in results: results[tid] = "relates_to"`). -/
def fillStep (acc : List (Int × String)) (t : Int × String) : List (Int × String) :=
  if (acc.lookup t.1).isSome then acc else dictInsert acc t.1 "relates_to"

/-- `classify_edge_types_batch(new_subject, targets, model, batch_size)`.
`chunkOutcomes i` is the generation-request outcome for the i-th chunk. -/
def classify_edge_types_batch (targets : List (Int × String))
    (model : Option String) (chunkOutcomes : Nat → Except Unit String)
    (batch_size : Nat) : List (Int × String) :=
  if targets.isEmpty then []
  else
    match model with
    | none => targets.map (fun t => (t.1, "relates_to"))
    | some _ =>
      let chunks := chunkList batch_size targets
      let results := (chunks.zip (List.range chunks.length)).foldl
        (chunkStep chunkOutcomes) []
      targets.foldl fillStep results

/-! ## embeddings.py — `get_embedding` and `cosine_similarity`

Each HTTP attempt of `get_embedding` is an oracle outcome. The parsed
response body is modelled by `EmbedBody` (`data.get("error")`,
`data.get("embedding")`); `badJson` is a `ValueError` from
`response.json()` (the code then proceeds with `data = {}`); `exception`
covers the `requests` exception handlers (connection error, timeout,
other request errors), which all fall through to the retry path. The
HTTP status code is carried but — exactly as in the source, which never
calls `raise_for_status` here — never consulted. -/

/-- The parsed JSON body of an embedding response. -/
structure EmbedBody where
  error : Option String
  embedding : Option (List ℚ)
deriving DecidableEq, Repr

/-- Outcome of one HTTP attempt in `get_embedding`. -/
inductive AttemptOutcome
  | exception
  | badJson (status : Nat)
  | body (status : Nat) (data : EmbedBody)
deriving DecidableEq, Repr

/-- How one attempt is handled.  `fatal` is the non-retryable
context-length error path. -/
inductive StepClass
  | success (v : List ℚ)
  | fatal
  | retryable
deriving DecidableEq, Repr

/-- Per-attempt control flow of the `get_embedding` loop body. -/
def classifyAttempt : AttemptOutcome → StepClass
  | .exception => .retryable
  | .badJson _ => .retryable
  | .body _ data =>
    match data.error with
    | some error_msg =>
      if pyContains (pyLower error_msg) "context length" then .fatal else .retryable
    | none =>
      match data.embedding with
      | some v => if v.isEmpty then .retryable else .success v
      | none => .retryable

/-- `EMBEDDING_MAX_RETRIES`. -/
def EMBEDDING_MAX_RETRIES : Nat := 3

/-- `EMBEDDING_RETRY_BASE_DELAY` (seconds, doubles each retry). -/
def EMBEDDING_RETRY_BASE_DELAY : ℚ := 2

/-- Result of a `get_embedding` run: the returned value, how many HTTP
attempts were made, and the sleeps taken between attempts (seconds). -/
structure EmbedRun where
  result : Option (List ℚ)
  attempts : Nat
  delays : List ℚ
deriving DecidableEq, Repr

/-- The `for attempt in range(EMBEDDING_MAX_RETRIES)` loop: `remaining`
iterations left, `k` the current attempt index. A retryable failure
sleeps `EMBEDDING_RETRY_BASE_DELAY * 2 ** attempt` only when another
attempt remains (both the in-branch sleep for Ollama-level errors and
the loop-end backoff compute this same delay). -/
def embedLoop (world : Nat → AttemptOutcome) : Nat → Nat → List ℚ → EmbedRun
  | 0, k, ds => ⟨none, k, ds⟩
  | r + 1, k, ds =>
    match classifyAttempt (world k) with
    | .success v => ⟨some v, k + 1, ds⟩
    | .fatal => ⟨none, k + 1, ds⟩
    | .retryable =>
      if r = 0 then ⟨none, k + 1, ds⟩
      else embedLoop world r (k + 1) (ds ++ [EMBEDDING_RETRY_BASE_DELAY * 2 ^ k])

/-- `get_embedding(text, model)`: empty (or whitespace-only) text and an
unavailable model return `None` with no HTTP attempt; otherwise the retry
loop runs. Truncation only shortens the prompt sent to the server and is
modelled separately by `truncate_for_embedding`. -/
def get_embedding (text : String) (model : Option String)
    (world : Nat → AttemptOutcome) : EmbedRun :=
  if text = "" ∨ pyStrip text = "" then ⟨none, 0, []⟩
  else
    match model with
    | none => ⟨none, 0, []⟩
    | some _ => embedLoop world EMBEDDING_MAX_RETRIES 0 []

/-- `DEFAULT_MAX_EMBEDDING_CHARS`. -/
def DEFAULT_MAX_EMBEDDING_CHARS : Nat := 6000

/-- `_truncate_for_embedding(text, max_chars)`. -/
def truncate_for_embedding (text : String) (max_chars : Nat) : String :=
  if text.length ≤ max_chars then text
  else
    let marker := "\n[TRUNCATED FOR EMBEDDING]"
    ⟨text.data.take (max_chars - marker.length) ++ marker.data⟩

/-! ### cosine_similarity

Vectors are exact rationals; the square roots force the result into `ℝ`.
`none` models a Python `None` argument. -/

/-- `sum(x * y for x, y in zip(a, b))`. -/
def dotProduct (a b : List ℚ) : ℚ :=
  ((a.zip b).map (fun p => p.1 * p.2)).sum

/-- `sum(x * x for x in a)`. -/
def sumSquares (a : List ℚ) : ℚ :=
  (a.map (fun x => x * x)).sum

/-- `cosine_similarity(a, b)`. -/
noncomputable def cosine_similarity (a b : Option (List ℚ)) : ℝ :=
  match a, b with
  | none, _ => 0
  | _, none => 0
  | some a, some b =>
    if a.length ≠ b.length then 0
    else
      let dot_product := dotProduct a b
      let magnitude_a := Real.sqrt (sumSquares a : ℝ)
      let magnitude_b := Real.sqrt (sumSquares b : ℝ)
      if magnitude_a = 0 ∨ magnitude_b = 0 then 0
      else (dot_product : ℝ) / (magnitude_a * magnitude_b)

/-! ## models_v2.py — rows

Database rows as records; the store is a `List` of rows. Timestamps are
abstract `Nat` instants supplied by the caller (`datetime.utcnow()`). -/

/-- A `memories` row (the columns the services read or write). -/
structure Memory where
  id : Int
  instance_id : String
  project : String
  memory_type : String
  subject : Option String
  content : String
  keywords : Option (List String)
  tags : Option (List String)
  importance : Int
  source_type : Option String
  source_context : Option String
  source_session_id : Option String
  embedding : Option (List ℚ)
  created_at : Nat
  last_accessed_at : Option Nat
  access_count : Int
  is_archived : Bool
deriving DecidableEq, Repr

/-- A `handoff_messages` row. -/
structure HandoffMessage where
  id : Int
  from_instance : String
  to_instance : String
  message_type : String
  subject : Option String
  content : String
  created_at : Nat
  read_at : Option Nat
  read_by : Option String
deriving DecidableEq, Repr

/-- A service-level return dict: `{"error": msg}` or a success payload
(`{"message": msg}`). -/
inductive SvcResult
  | err (msg : String)
  | ok (msg : String)
deriving DecidableEq, Repr

/-- Replace the first list element satisfying `p` (the ORM updates the
single row returned by `.first()`). -/
def replaceFirst (p : α → Bool) (f : α → α) : List α → List α
  | [] => []
  | x :: xs => if p x then f x :: xs else x :: replaceFirst p f xs

/-! ## memory_service.py — forget -/

/-- The field updates `forget` applies to the found row.  Python
truthiness matters twice: `if reason and memory.source_context:` treats
`None` and `""` alike. -/
def forgetUpdate (memory : Memory) (reason : Option String) : Memory :=
  let m := { memory with is_archived := true }
  if pyTruthyStr reason && pyTruthyStr memory.source_context then
    { m with source_context := some (memory.source_context.getD "" ++ "\n[ARCHIVED: " ++ reason.getD "" ++ "]") }
  else if pyTruthyStr reason then
    { m with source_context := some ("[ARCHIVED: " ++ reason.getD "" ++ "]") }
  else m

/-- `forget(memory_id, reason)`: archive (soft delete). Returns the
updated store and the service result. -/
def forget (db : List Memory) (memory_id : Int) (reason : Option String) :
    List Memory × SvcResult :=
  match db.find? (fun m => m.id == memory_id) with
  | none => (db, .err ("Memory " ++ toString memory_id ++ " not found"))
  | some memory =>
    let subject_info :=
      if pyTruthyStr memory.subject then " (" ++ memory.subject.getD "" ++ ")" else ""
    (replaceFirst (fun m => m.id == memory_id) (fun m => forgetUpdate m reason) db,
     .ok ("Archived memory " ++ toString memory_id ++ subject_info))

/-! ## handoff_service.py — mark_handoff_read -/

/-- `mark_handoff_read(message_id, read_by)`: stamps `read_at = now`
(the current clock, a parameter here) and `read_by = reader`,
unconditionally — also on a message that was already read. -/
def mark_handoff_read (db : List HandoffMessage) (instances : List String)
    (message_id : Int) (read_by : String) (now : Nat) :
    List HandoffMessage × SvcResult :=
  if ¬ instances.contains read_by then
    (db, .err ("Invalid read_by " ++ read_by))
  else
    match db.find? (fun m => m.id == message_id) with
    | none => (db, .err ("Message " ++ toString message_id ++ " not found"))
    | some _ =>
      (replaceFirst (fun m => m.id == message_id)
        (fun m => { m with read_at := some now, read_by := some read_by }) db,
       .ok "Marked read")

/-! ## memory_service.py — synthesis helpers and get_memories_by_ids -/

/-- `_synthesize_memories_with_llm(memories, query, scores)`: `none`
when the LLM is unavailable; an empty memory list short-circuits to a
fixed string; otherwise the generation outcome `gen` (the prompt text,
which the similarity scores only decorate, is not modelled — no result
shape depends on it). -/
def synthesize_memories_with_llm (llmAvailable : Bool) (gen : Option String)
    (memories : List Memory) (query : Option String) : Option String :=
  if ¬ llmAvailable then none
  else if memories.isEmpty then
    some (if ¬ pyTruthyStr query then "No memories found."
          else "No memories found matching your query.")
  else gen

/-- `_format_memories_as_text(memories)` (LLM-unavailable fallback). -/
def format_memories_as_text (memories : List Memory) : String :=
  if memories.isEmpty then "No memories found."
  else
    String.intercalate "\n" (memories.map (fun m =>
      let subject_part :=
        if pyTruthyStr m.subject then " (" ++ m.subject.getD "" ++ ")" else ""
      let preview :=
        if 100 < m.content.length then (⟨m.content.data.take 100⟩ : String) ++ "..."
        else m.content
      "- [" ++ m.memory_type ++ "]" ++ subject_part ++ ": " ++ preview))

/-- Access bookkeeping performed on every returned row. -/
def bumpAccess (now : Nat) (m : Memory) : Memory :=
  { m with last_accessed_at := some now, access_count := m.access_count + 1 }

/-- The return dict of `get_memories_by_ids`. -/
inductive ByIdsResult
  | raw (memories : List Memory) (count : Nat) (not_found : List Int)
  | summary (text : String) (count : Nat) (memory_ids : List Int) (not_found : List Int)
deriving DecidableEq, Repr

/-- `count` of either result shape. -/
def ByIdsResult.countOf : ByIdsResult → Nat
  | .raw _ c _ => c
  | .summary _ c _ _ => c

/-- `not_found` of either result shape (the source omits the dict key
when this list is empty). -/
def ByIdsResult.notFoundOf : ByIdsResult → List Int
  | .raw _ _ nf => nf
  | .summary _ _ _ nf => nf

/-- `get_memories_by_ids(memory_ids, detail_level, synthesize)`.
`gen` is the LLM generation outcome. Returns the updated store (access
bookkeeping) and the result dict. -/
def get_memories_by_ids (db : List Memory) (memory_ids : List Int)
    (synthesize : Bool) (llmAvailable : Bool) (gen : Option String) (now : Nat) :
    List Memory × ByIdsResult :=
  let memories := (db.filter (fun m => memory_ids.contains m.id)).map (bumpAccess now)
  let found_ids := memories.map (·.id)
  let not_found := memory_ids.filter (fun mid => !(found_ids.contains mid))
  let db₂ := db.map (fun m => if memory_ids.contains m.id then bumpAccess now m else m)
  let result :=
    if synthesize ∧ 1 < memories.length then
      match synthesize_memories_with_llm llmAvailable gen memories none with
      | some synthesis => .summary synthesis memories.length (memories.map (·.id)) not_found
      | none => .raw memories memories.length not_found
    else .raw memories memories.length not_found
  (db₂, result)

/-! ## config_v2.py — configuration

A JSON config value (for the `auto_link` sub-dict, whose values the file
may set to anything). -/

inductive CVal
  | vB (b : Bool)
  | vQ (q : ℚ)
  | vN (n : Int)
  | vS (s : String)
  | vNone
deriving DecidableEq, Repr

/-- Python truthiness of a config value. -/
def pyTruthyCVal : CVal → Bool
  | .vB b => b
  | .vQ q => q ≠ 0
  | .vN n => n ≠ 0
  | .vS s => s ≠ ""
  | .vNone => false

/-- The loaded process configuration (the parts the claims exercise):
the `synthesis` and `auto_link` sub-dicts of the merged config. -/
structure ConfigModel where
  synthesis : List (String × Bool)
  auto_link : List (String × CVal)
deriving DecidableEq, Repr

/-- `is_synthesis_enabled()`: `config.get("synthesis", {}).get("enabled", True)`. -/
def is_synthesis_enabled (config : ConfigModel) : Bool :=
  (config.synthesis.lookup "enabled").getD true

/-- Python `d.get(k, default)`. -/
def cfgGet (d : List (String × CVal)) (k : String) (dflt : CVal) : CVal :=
  (d.lookup k).getD dflt

/-- Python `d[k]` — raises `KeyError` on a missing key. -/
def dictGetPy (d : List (String × CVal)) (k : String) : Except String CVal :=
  match d.lookup k with
  | some v => .ok v
  | none => .error ("KeyError: " ++ k)

/-- `get_auto_link_config()`: builds a fresh dict with exactly these six
keys, taking file overrides from the `auto_link` sub-dict. -/
def get_auto_link_config (config : ConfigModel) : List (String × CVal) :=
  let auto_link := config.auto_link
  [("enabled", cfgGet auto_link "enabled" (.vB true)),
   ("similarity_threshold", cfgGet auto_link "similarity_threshold" (.vQ (3 / 4))),
   ("max_links", cfgGet auto_link "max_links" (.vN 5)),
   ("same_project_only", cfgGet auto_link "same_project_only" (.vB true)),
   ("classify_edges", cfgGet auto_link "classify_edges" (.vB true)),
   ("classification_model", cfgGet auto_link "classification_model" .vNone)]

/-- A numeric config value where a float is expected (`TypeError`
otherwise, mirroring a Python comparison with a non-number). -/
def asQ : CVal → Except String ℚ
  | .vQ q => .ok q
  | .vN n => .ok (n : ℚ)
  | _ => .error "TypeError"

/-- An integer config value where a slice bound is expected. -/
def asSliceNat : CVal → Except String Nat
  | .vN n => .ok n.toNat
  | _ => .error "TypeError"

/-! ## memory_service.py — the auto-link pass of `remember`

(lines 177–265 of the source). The database reads are oracles:
`findSimilar proj threshold` is `_find_similar_memories` (already
sorted descending, no cap — its docstring: the caller tiers by
confidence), `fetchSubjects` the one-query subject prefetch. Each
`classify_edge_type` call is the real function applied to the resolved
classification model and a per-target generation outcome. -/

/-- A `memory_edges` row as staged by the pass. -/
structure EdgeRow where
  source_id : Int
  target_id : Int
  relation_type : String
  strength : ℚ
  bidirectional : Bool
  meta_classified : Bool
  created_by : String
deriving DecidableEq, Repr

/-- An entry of `links_created`. -/
structure LinkOut where
  target : Int
  target_subject : Option String
  type : String
  score : ℚ
deriving DecidableEq, Repr

/-- An entry of `suggested_links`. -/
structure SuggestOut where
  target : Int
  target_subject : Option String
  score : ℚ
deriving DecidableEq, Repr

/-- Python `round(x, 4)` on an exact rational (half-to-even on floats;
ties do not occur in the inputs considered). -/
def pyRound4 (q : ℚ) : ℚ :=
  (round (q * 10000) : Int) / 10000

/-- Lines 198–201: split the scored candidates into the auto tier
(`score >= link_threshold`, uncapped) and the suggest tier
(`suggest_threshold <= score < link_threshold`, capped at
`max_suggestions`). -/
def tierSplit (similar : List (Int × ℚ)) (link_threshold suggest_threshold : ℚ)
    (max_suggestions : Nat) : List (Int × ℚ) × List (Int × ℚ) :=
  (similar.filter (fun p => decide (link_threshold ≤ p.2)),
   (similar.filter (fun p =>
      decide (suggest_threshold ≤ p.2) && decide (p.2 < link_threshold))).take max_suggestions)

/-- Lines 215–252: the edge-creation loop over the auto tier. Returns
the staged edges, the `links_created` entries, and the number of
classifier generation requests issued (one per `classify_edge_type`
call that reaches the model). -/
def autoLinkCreateEdges (new_id : Int) (new_subject : Option String)
    (instance_id : String) (auto_tier : List (Int × ℚ))
    (target_subjects : List (Int × Option String)) (should_classify : Bool)
    (supersedes_id : Option Int) (clsModel : Option String)
    (clsOutcome : Int → Except Unit String) :
    List EdgeRow × List LinkOut × Nat :=
  auto_tier.foldl
    (fun acc p =>
      let (target_id, score) := p
      if supersedes_id = some target_id then acc
      else
        let subjHit := target_subjects.lookup target_id
        let edge_type :=
          if should_classify && subjHit.isSome then
            classify_edge_type clsModel (clsOutcome target_id)
          else "relates_to"
        let requests :=
          if should_classify && subjHit.isSome && clsModel.isSome then 1 else 0
        let is_bidirectional := ["relates_to", "contradicts"].contains edge_type
        let edge : EdgeRow :=
          ⟨new_id, target_id, edge_type, score, is_bidirectional, should_classify, instance_id⟩
        let link : LinkOut :=
          ⟨target_id, (subjHit.getD (some "(no subject)")), edge_type, pyRound4 score⟩
        (acc.1 ++ [edge], acc.2.1 ++ [link], acc.2.2 + requests))
    ([], [], 0)

/-- What the auto-link pass produces when it completes. -/
structure AutoLinkOut where
  edges : List EdgeRow
  links_created : List LinkOut
  suggested_links : List SuggestOut
  generation_requests : Nat
deriving DecidableEq, Repr

/-- Lines 177–265 of `remember`: the auto-link pass. An uncaught Python
exception (`KeyError`, `TypeError`) is an `Except.error`. -/
def auto_link_pass (config : ConfigModel) (auto_link_arg : Option Bool)
    (embedding : Option (List ℚ)) (new_id : Int) (new_subject : Option String)
    (instance_id : String) (project : String)
    (findSimilar : Option String → ℚ → List (Int × ℚ))
    (fetchSubjects : List Int → List (Int × Option String))
    (clsModel : Option String) (clsOutcome : Int → Except Unit String)
    (supersedes_id : Option Int) : Except String AutoLinkOut := do
  let auto_link_config := get_auto_link_config config
  let enabled ← dictGetPy auto_link_config "enabled"
  let should_auto_link :=
    match auto_link_arg with
    | some b => b
    | none => pyTruthyCVal enabled
  if should_auto_link && embedding.isSome then
    let link_threshold ← asQ (← dictGetPy auto_link_config "link_threshold")
    let suggest_threshold ← asQ (← dictGetPy auto_link_config "suggest_threshold")
    let max_suggestions ← asSliceNat (← dictGetPy auto_link_config "max_suggestions")
    let same_project_only ← dictGetPy auto_link_config "same_project_only"
    let similar_project := if pyTruthyCVal same_project_only then some project else none
    let similar := findSimilar similar_project suggest_threshold
    let (auto_tier, suggest_tier) :=
      tierSplit similar link_threshold suggest_threshold max_suggestions
    let should_classify := pyTruthyCVal (cfgGet auto_link_config "classify_edges" (.vB true))
    let all_target_ids :=
      ((auto_tier ++ suggest_tier).map (·.1)).filter (fun tid => supersedes_id ≠ some tid)
    let target_subjects := fetchSubjects all_target_ids
    let (edges, links_created, requests) :=
      autoLinkCreateEdges new_id new_subject instance_id auto_tier target_subjects
        should_classify supersedes_id clsModel clsOutcome
    let suggested_links := suggest_tier.foldl
      (fun acc p =>
        if supersedes_id = some p.1 then acc
        else acc ++ [(⟨p.1, (target_subjects.lookup p.1).getD (some "(no subject)"),
                       pyRound4 p.2⟩ : SuggestOut)])
      []
    return ⟨edges, links_created, suggested_links, requests⟩
  else
    return ⟨[], [], [], 0⟩

/-! ## memory_service.py — recall -/

/-- The arguments of `recall` that shape its result. -/
structure RecallArgs where
  query : String
  instance_id : Option String
  project : Option String
  memory_type : Option String
  subject : Option String
  min_importance : Option Int
  include_archived : Bool
  limit : Nat
  synthesize : Bool
deriving DecidableEq, Repr

/-- Python truthiness of an optional integer (`None` and `0` falsy). -/
def pyTruthyInt : Option Int → Bool
  | none => false
  | some n => n ≠ 0

/-- The SQL filter set built from the non-vector arguments (each filter
is applied only when its argument is Python-truthy, mirroring
`if instance_id:` etc.; `ilike` on a NULL subject matches nothing). -/
def passes_filters (args : RecallArgs) (m : Memory) : Bool :=
  (args.include_archived || !m.is_archived) &&
  (!pyTruthyStr args.instance_id || m.instance_id == args.instance_id.getD "") &&
  (!pyTruthyStr args.project || m.project == args.project.getD "") &&
  (!pyTruthyStr args.memory_type || m.memory_type == args.memory_type.getD "") &&
  (!pyTruthyStr args.subject ||
    (match m.subject with
     | none => false
     | some ms => pyContains (pyLower ms) (pyLower (args.subject.getD "")))) &&
  (!pyTruthyInt args.min_importance || args.min_importance.getD 0 ≤ m.importance)

/-- The similarity score `recall` assigns to a row on the semantic path:
cosine similarity when an embedding exists, `-1.0` otherwise. -/
noncomputable def recallScore (query_embedding : List ℚ) (m : Memory) : ℝ :=
  match m.embedding with
  | some e => cosine_similarity (some query_embedding) (some e)
  | none => -1

/-- `scored_memories.sort(key=lambda x: x[1], reverse=True)` — a stable
descending sort by score (the Python sort is stable; stable sorting by a
total preorder is unique, so insertion sort models it exactly). -/
noncomputable def semanticRank (q : List ℚ) (filtered : List Memory) :
    List (Memory × ℝ) :=
  List.insertionSort (fun p₁ p₂ => p₂.2 ≤ p₁.2)
    (filtered.map (fun m => (m, recallScore q m)))

/-- The semantic path: rank all filter-qualifying rows, take the top
`limit`. -/
noncomputable def semanticTop (q : List ℚ) (filtered : List Memory) (limit : Nat) :
    List (Memory × ℝ) :=
  (semanticRank q filtered).take limit

/-- The text rendering of a Postgres `TEXT[]` value, as compared by
`keywords.cast(String).ilike(...)`. -/
def kwText (kws : List String) : String :=
  "\x7b" ++ String.intercalate "," kws ++ "\x7d"

/-- One keyword-search token filter: `content`, `subject` or the cast
keyword array matches, case-insensitively. -/
def keywordFilter (w : String) (m : Memory) : Bool :=
  pyContains (pyLower m.content) (pyLower w) ||
  (match m.subject with
   | none => false
   | some s => pyContains (pyLower s) (pyLower w)) ||
  (match m.keywords with
   | none => false
   | some kws => pyContains (pyLower (kwText kws)) (pyLower w))

/-- `ORDER BY importance DESC, access_count DESC, created_at DESC`
as a Boolean preorder (one deterministic realization of the SQL order,
which fixes no tie-break). -/
def keywordRel (m₁ m₂ : Memory) : Bool :=
  decide (m₂.importance < m₁.importance) ||
  (m₁.importance == m₂.importance &&
    (decide (m₂.access_count < m₁.access_count) ||
     (m₁.access_count == m₂.access_count && decide (m₂.created_at ≤ m₁.created_at))))

/-- The return dict of `recall`: the raw shape
`{memories, count, search_method}` (each row optionally carrying
`similarity_score`) or the synthesized shape
`{summary, count, search_method, memory_ids}`. -/
inductive RecallResult
  | raw (memories : List (Memory × Option ℝ)) (count : Nat) (search_method : String)
  | summary (text : String) (count : Nat) (search_method : String) (memory_ids : List Int)

/-- `recall(query, ..., synthesize)`. `config` is the loaded process
configuration, available to the function exactly as in the source —
which never consults `is_synthesis_enabled`. `query_embedding` is the
`get_embedding` outcome for the formatted query, `llmAvailable` and
`gen` the synthesis oracles. Access-counter updates mutate the store
and are not part of the returned dict. Score rounding
(`round(score, 4)`) is omitted from the raw rows. (Named
`memory_recall`, the tool-surface name, because `recall` is taken by a
Mathlib command.) -/
noncomputable def memory_recall (config : ConfigModel) (args : RecallArgs) (db : List Memory)
    (query_embedding : Option (List ℚ)) (llmAvailable : Bool) (gen : Option String) :
    RecallResult :=
  let filtered := db.filter (passes_filters args)
  let ranked : List (Memory × Option ℝ) × String :=
    match query_embedding with
    | some q =>
      let top := semanticTop q filtered args.limit
      (top.map (fun p => (p.1, some p.2)), "semantic")
    | none =>
      let kwFiltered :=
        if args.query ≠ "" then
          (pySplitWs (pyStrip args.query)).foldl (fun acc w => acc.filter (keywordFilter w))
            filtered
        else filtered
      (((List.insertionSort (fun m₁ m₂ => (keywordRel m₁ m₂ : Prop)) kwFiltered).take
            args.limit).map
          (fun m => (m, (none : Option ℝ))), "keyword (fallback)")
  let memories := ranked.1.map (·.1)
  if ¬ args.synthesize then
    .raw ranked.1 memories.length ranked.2
  else
    match synthesize_memories_with_llm llmAvailable gen memories (some args.query) with
    | some synthesis =>
      .summary synthesis memories.length ranked.2 (memories.map (·.id))
    | none =>
      .summary (format_memories_as_text memories) memories.length
        (ranked.2 ++ " (no LLM)") (memories.map (·.id))

/-! ## Concrete rows used by witnesses and counterexamples -/

/-- A stored memory without an embedding. -/
def memNoEmb : Memory :=
  ⟨1, "desktop", "life", "fact", some "alpha", "first fact", none, none, 5,
   some "explicit", none, none, none, 100, none, 0, false⟩

/-- A stored memory whose embedding is exactly opposite to the query
vector `[1]`, so its cosine similarity is exactly `-1`. -/
def memOppEmb : Memory :=
  ⟨2, "desktop", "life", "fact", some "beta", "second fact", none, none, 5,
   some "explicit", none, none, some [-1], 200, none, 0, false⟩

/-- An unread broadcast handoff message. -/
def msgUnread : HandoffMessage :=
  ⟨7, "desktop", "all", "fyi", none, "restarting the model server", 50, none, none⟩

/-- Six scored candidates, all at or above the default
`similarity_threshold` of 0.75 — one more than the default `max_links`
of 5. -/
def sixCands : List (Int × ℚ) :=
  [(11, 95 / 100), (12, 9 / 10), (13, 88 / 100),
   (14, 85 / 100), (15, 8 / 10), (16, 78 / 100)]

/-- Ten auto-tier candidates (ids 1–10), mirroring the ten-candidate
batched-classification scenario. -/
def tenPairs : List (Int × ℚ) :=
  [(1, 98 / 100), (2, 96 / 100), (3, 94 / 100), (4, 92 / 100), (5, 9 / 10),
   (6, 88 / 100), (7, 86 / 100), (8, 84 / 100), (9, 82 / 100), (10, 8 / 10)]

/-- Prefetched subjects for the ten candidates. -/
def tenSubjects : List (Int × Option String) :=
  [(1, some "s1"), (2, some "s2"), (3, some "s3"), (4, some "s4"), (5, some "s5"),
   (6, some "s6"), (7, some "s7"), (8, some "s8"), (9, some "s9"), (10, some "s10")]

/-- Arguments of a `recall` call: query `"first"`, default filters,
`synthesize = true`. -/
def recallArgsC4 : RecallArgs :=
  ⟨"first", none, none, none, none, none, false, 20, true⟩

/-! ## Helper lemmas -/

theorem foldl_preserve_mem {α β : Type} (P : β → Prop) (f : List β → α → List β)
    (l : List α)
    (hf : ∀ acc x, x ∈ l → (∀ q ∈ acc, P q) → ∀ p ∈ f acc x, P p) :
    ∀ acc, (∀ q ∈ acc, P q) → ∀ p ∈ l.foldl f acc, P p := by
  induction l with
  | nil => intro acc h p hp; exact h p hp
  | cons x xs ih =>
    intro acc h p hp
    exact ih (fun acc y hy => hf acc y (List.mem_cons_of_mem x hy))
      (f acc x) (hf acc x (List.mem_cons_self x xs) h) p hp

theorem find?_replaceFirst {α : Type} (p : α → Bool) (f : α → α) :
    ∀ (l : List α) (a : α), l.find? p = some a → p (f a) = true →
      (replaceFirst p f l).find? p = some (f a) := by
  intro l
  induction l with
  | nil => intro a h _; simp [List.find?] at h
  | cons x xs ih =>
    intro a h hpf
    by_cases hx : p x
    · have hax : a = x := by
        rw [List.find?_cons_of_pos _ hx] at h
        exact (Option.some.injEq _ _ ▸ h).symm
      subst hax
      simp [replaceFirst, hx, List.find?_cons_of_pos _ hpf]
    · rw [List.find?_cons_of_neg _ hx] at h
      simp only [replaceFirst]
      rw [if_neg hx, List.find?_cons_of_neg _ hx]
      exact ih a h hpf

theorem mem_dictInsert {d : List (Int × String)} {k : Int} {v : String}
    {p : Int × String} (hp : p ∈ dictInsert d k v) : p.2 = v ∨ p ∈ d := by
  unfold dictInsert at hp
  split at hp
  · obtain ⟨q, hq, hfq⟩ := List.mem_map.mp hp
    by_cases h : q.1 == k
    · simp only [h, if_pos] at hfq
      left; rw [← hfq]
    · simp only [h, Bool.false_eq_true, if_neg, if_false] at hfq
      right; rw [← hfq]; exact hq
  · rcases List.mem_append.mp hp with h | h
    · right; exact h
    · left; rw [List.mem_singleton.mp h]

theorem supersedes_guard_ne (r : String) :
    (if r = "supersedes" then "contradicts" else r) ≠ "supersedes" := by
  split
  next => decide
  next h => exact h

theorem normalize_edge_type_ne_supersedes (raw : String) :
    normalize_edge_type raw ≠ "supersedes" := by
  simp only [normalize_edge_type]
  exact supersedes_guard_ne _

theorem parseLine_ne_supersedes (valid_ids : List Int) (acc : List (Int × String))
    (line₀ : String) (hacc : ∀ q ∈ acc, q.2 ≠ "supersedes") :
    ∀ p ∈ parseLine valid_ids acc line₀, p.2 ≠ "supersedes" := by
  intro p hp
  simp only [parseLine] at hp
  split at hp
  · exact hacc p hp
  · split at hp
    · exact hacc p hp
    · split at hp
      · exact hacc p hp
      · rcases mem_dictInsert hp with h | h
        · rw [h]; exact normalize_edge_type_ne_supersedes _
        · exact hacc p h

theorem parse_batch_ne_supersedes (raw : String) (targets : List (Int × String)) :
    ∀ p ∈ parse_batch_classifications raw targets, p.2 ≠ "supersedes" := by
  unfold parse_batch_classifications
  exact foldl_preserve_mem _ _ _
    (fun acc x _ hacc => parseLine_ne_supersedes _ acc x hacc) [] (by simp)

theorem classify_batch_chunk_ne_supersedes (targets : List (Int × String))
    (outcome : Except Unit String) :
    ∀ p ∈ classify_batch_chunk targets outcome, p.2 ≠ "supersedes" := by
  cases outcome with
  | error e => simp [classify_batch_chunk]
  | ok raw => exact parse_batch_ne_supersedes raw targets

theorem dictUpdate_ne_supersedes {d news : List (Int × String)}
    (hd : ∀ p ∈ d, p.2 ≠ "supersedes") (hnews : ∀ p ∈ news, p.2 ≠ "supersedes") :
    ∀ p ∈ dictUpdate d news, p.2 ≠ "supersedes" := by
  unfold dictUpdate
  refine foldl_preserve_mem _ _ _ ?_ d hd
  intro acc x hx hacc p hp
  rcases mem_dictInsert hp with h | h
  · rw [h]; exact hnews x hx
  · exact hacc p h

/-! ## Claim theorems -/

/-- C1: the edge-type classifier never returns `"supersedes"`: every
result of `classify_edge_type` (any model availability, any generation
outcome) differs from it, and so does every value of the map returned by
`classify_edge_types_batch` — model output normalizing to `supersedes`
is rewritten to `contradicts` by `normalize_edge_type`, and every
failure or unparsable output path yields `relates_to`. -/
theorem c1_classifier_never_supersedes :
    (∀ (model : Option String) (outcome : Except Unit String),
      classify_edge_type model outcome ≠ "supersedes") ∧
    (∀ (targets : List (Int × String)) (model : Option String)
      (chunkOutcomes : Nat → Except Unit String) (batch_size : Nat),
      ∀ p ∈ classify_edge_types_batch targets model chunkOutcomes batch_size,
        p.2 ≠ "supersedes") := by
  constructor
  · intro model outcome
    cases model with
    | none => simp only [classify_edge_type]; decide
    | some m =>
      cases outcome with
      | error e => simp only [classify_edge_type]; decide
      | ok raw =>
        simpa only [classify_edge_type] using normalize_edge_type_ne_supersedes raw
  · intro targets model chunkOutcomes batch_size p hp
    unfold classify_edge_types_batch at hp
    split at hp
    · simp at hp
    · split at hp
      · obtain ⟨q, _, hfq⟩ := List.mem_map.mp hp
        rw [← hfq]
        show "relates_to" ≠ "supersedes"
        decide
      · refine foldl_preserve_mem (fun p : Int × String => p.2 ≠ "supersedes") fillStep targets ?_ _ ?_ p hp
        · intro acc t _ hacc q hq
          simp only [fillStep] at hq
          split at hq
          · exact hacc q hq
          · rcases mem_dictInsert hq with h | h
            · rw [h]; decide
            · exact hacc q h
        · refine foldl_preserve_mem (fun p : Int × String => p.2 ≠ "supersedes") _ _ ?_ [] (by simp)
          intro acc ci _ hacc q hq
          simp only [chunkStep] at hq
          exact dictUpdate_ne_supersedes hacc
            (classify_batch_chunk_ne_supersedes ci.1 (chunkOutcomes ci.2)) q hq

/-- Witness for C1 at concrete inputs: a single-pair classification whose
model output is `"supersede."` comes back `"contradicts"`, and the batch
result for output line `"42|supersedes"` maps id 42 to `"contradicts"`. -/
theorem c1_witness :
    classify_edge_type (some "qwen3:1.7b") (.ok "supersede.") ≠ "supersedes" ∧
    (((42 : Int), "contradicts") : Int × String).2 ≠ "supersedes" :=
  ⟨c1_classifier_never_supersedes.1 (some "qwen3:1.7b") (.ok "supersede."),
   c1_classifier_never_supersedes.2 [(42, "agent notes")] (some "qwen3:1.7b")
     (fun _ => .ok "42|supersedes") 40 ((42 : Int), "contradicts") (by decide)⟩

theorem embedLoop_success (world : Nat → AttemptOutcome) (r k : Nat) (ds : List ℚ)
    (v : List ℚ) (hc : classifyAttempt (world k) = .success v) :
    embedLoop world (r + 1) k ds = ⟨some v, k + 1, ds⟩ := by
  unfold embedLoop; rw [hc]

theorem embedLoop_fatal (world : Nat → AttemptOutcome) (r k : Nat) (ds : List ℚ)
    (hc : classifyAttempt (world k) = .fatal) :
    embedLoop world (r + 1) k ds = ⟨none, k + 1, ds⟩ := by
  unfold embedLoop; rw [hc]

theorem embedLoop_retry_last (world : Nat → AttemptOutcome) (k : Nat) (ds : List ℚ)
    (hc : classifyAttempt (world k) = .retryable) :
    embedLoop world 1 k ds = ⟨none, k + 1, ds⟩ := by
  show embedLoop world (0 + 1) k ds = _
  conv_lhs => unfold embedLoop
  rw [hc]
  rfl

theorem embedLoop_retry_step (world : Nat → AttemptOutcome) (r k : Nat) (ds : List ℚ)
    (hc : classifyAttempt (world k) = .retryable) (hr : r ≠ 0) :
    embedLoop world (r + 1) k ds =
      embedLoop world r (k + 1) (ds ++ [EMBEDDING_RETRY_BASE_DELAY * 2 ^ k]) := by
  conv_lhs => unfold embedLoop
  rw [hc]
  simp [hr]

theorem embedLoop_attempts_le (world : Nat → AttemptOutcome) :
    ∀ (r k : Nat) (ds : List ℚ), (embedLoop world r k ds).attempts ≤ k + r := by
  intro r
  induction r with
  | zero => intro k ds; simp [embedLoop]
  | succ r ih =>
    intro k ds
    cases hc : classifyAttempt (world k) with
    | success v =>
      rw [embedLoop_success world r k ds v hc]
      show k + 1 ≤ k + (r + 1)
      omega
    | fatal =>
      rw [embedLoop_fatal world r k ds hc]
      show k + 1 ≤ k + (r + 1)
      omega
    | retryable =>
      by_cases hr : r = 0
      · subst hr
        rw [embedLoop_retry_last world k ds hc]
      · rw [embedLoop_retry_step world r k ds hc hr]
        have := ih (k + 1) (ds ++ [EMBEDDING_RETRY_BASE_DELAY * 2 ^ k])
        omega

theorem embedLoop_attempts_ge (world : Nat → AttemptOutcome) :
    ∀ (r k : Nat) (ds : List ℚ), 1 ≤ r → k + 1 ≤ (embedLoop world r k ds).attempts := by
  intro r
  induction r with
  | zero => intro k ds h; omega
  | succ r ih =>
    intro k ds _
    cases hc : classifyAttempt (world k) with
    | success v => rw [embedLoop_success world r k ds v hc]
    | fatal => rw [embedLoop_fatal world r k ds hc]
    | retryable =>
      by_cases hr : r = 0
      · subst hr; rw [embedLoop_retry_last world k ds hc]
      · rw [embedLoop_retry_step world r k ds hc hr]
        have := ih (k + 1) (ds ++ [EMBEDDING_RETRY_BASE_DELAY * 2 ^ k]) (by omega)
        omega

theorem embedLoop_delays (world : Nat → AttemptOutcome) :
    ∀ (r k : Nat) (ds : List ℚ), 1 ≤ r →
      ds = (List.range k).map (fun i => EMBEDDING_RETRY_BASE_DELAY * 2 ^ i) →
      (embedLoop world r k ds).delays =
        (List.range ((embedLoop world r k ds).attempts - 1)).map
          (fun i => EMBEDDING_RETRY_BASE_DELAY * 2 ^ i) := by
  intro r
  induction r with
  | zero => intro k ds h; omega
  | succ r ih =>
    intro k ds _ hds
    cases hc : classifyAttempt (world k) with
    | success v => rw [embedLoop_success world r k ds v hc]; simpa using hds
    | fatal => rw [embedLoop_fatal world r k ds hc]; simpa using hds
    | retryable =>
      by_cases hr : r = 0
      · subst hr; rw [embedLoop_retry_last world k ds hc]; simpa using hds
      · rw [embedLoop_retry_step world r k ds hc hr]
        exact ih (k + 1) (ds ++ [EMBEDDING_RETRY_BASE_DELAY * 2 ^ k]) (by omega)
          (by rw [hds, List.range_succ, List.map_append]; rfl)

theorem embedLoop_all_retryable (world : Nat → AttemptOutcome) :
    ∀ (r k : Nat) (ds : List ℚ),
      (∀ j, k ≤ j → j < k + r → classifyAttempt (world j) = .retryable) →
      (embedLoop world r k ds).result = none ∧
      (embedLoop world r k ds).attempts = k + r := by
  intro r
  induction r with
  | zero => intro k ds _; simp [embedLoop]
  | succ r ih =>
    intro k ds hall
    have hc := hall k (le_refl k) (by omega)
    by_cases hr : r = 0
    · subst hr
      rw [embedLoop_retry_last world k ds hc]
      exact ⟨rfl, rfl⟩
    · rw [embedLoop_retry_step world r k ds hc hr]
      obtain ⟨h1, h2⟩ := ih (k + 1) (ds ++ [EMBEDDING_RETRY_BASE_DELAY * 2 ^ k])
        (fun j hj hj2 => hall j (by omega) (by omega))
      exact ⟨h1, by omega⟩

/-- C6: with non-empty input and an available model, `get_embedding`
makes at most 3 HTTP attempts; the sleeps between attempts follow
exponential backoff (base 2 s, doubling: the i-th sleep is `2 * 2 ^ i`);
a response body carrying a context-length `error` field — parsed even
when it arrives with HTTP server-error status 500, which the code never
consults — returns `None` after that single attempt with no retry;
malformed JSON and an empty embedding vector are retried; and when every
attempt fails retryably the run returns `None` after the 3rd attempt. -/
theorem c6_get_embedding_retry_policy (text m : String)
    (world : Nat → AttemptOutcome) (htext : ¬ (text = "" ∨ pyStrip text = "")) :
    (get_embedding text (some m) world).attempts ≤ 3 ∧
    (get_embedding text (some m) world).delays =
      (List.range ((get_embedding text (some m) world).attempts - 1)).map
        (fun i => EMBEDDING_RETRY_BASE_DELAY * 2 ^ i) ∧
    (∀ (status : Nat) (msg : String),
      world 0 = .body status ⟨some msg, none⟩ →
      pyContains (pyLower msg) "context length" = true →
      (get_embedding text (some m) world).result = none ∧
      (get_embedding text (some m) world).attempts = 1) ∧
    (∀ status : Nat,
      world 0 = .badJson status ∨ world 0 = .body status ⟨none, some []⟩ →
      2 ≤ (get_embedding text (some m) world).attempts) ∧
    ((∀ k < 3, classifyAttempt (world k) = .retryable) →
      (get_embedding text (some m) world).result = none ∧
      (get_embedding text (some m) world).attempts = 3) := by
  have hrun : get_embedding text (some m) world = embedLoop world 3 0 [] := by
    simp [get_embedding, if_neg htext, EMBEDDING_MAX_RETRIES]
  rw [hrun]
  refine ⟨embedLoop_attempts_le world 3 0 [], ?_, ?_, ?_, ?_⟩
  · exact embedLoop_delays world 3 0 [] (by omega) (by simp)
  · intro status msg hw hctx
    have hc : classifyAttempt (world 0) = .fatal := by
      simp [classifyAttempt, hw, hctx]
    rw [show embedLoop world 3 0 [] = ⟨none, 0 + 1, []⟩ from embedLoop_fatal world 2 0 [] hc]
    exact ⟨rfl, rfl⟩
  · intro status hw
    have hc : classifyAttempt (world 0) = .retryable := by
      rcases hw with hw | hw <;> simp [classifyAttempt, hw]
    rw [show embedLoop world 3 0 [] =
        embedLoop world 2 1 ([] ++ [EMBEDDING_RETRY_BASE_DELAY * 2 ^ 0]) from
      embedLoop_retry_step world 2 0 [] hc (by omega)]
    exact embedLoop_attempts_ge world 2 1 _ (by omega)
  · intro hall
    have := embedLoop_all_retryable world 3 0 []
      (fun j _ hj => hall j (by omega))
    simpa using this

/-- Witness for C6: a run against a server that refuses every connection
returns `None` after exactly 3 attempts. -/
theorem c6_witness :
    (get_embedding "hello" (some "nomic-embed-text") (fun _ => .exception)).result = none ∧
    (get_embedding "hello" (some "nomic-embed-text") (fun _ => .exception)).attempts = 3 :=
  (c6_get_embedding_retry_policy "hello" "nomic-embed-text" (fun _ => .exception)
    (by decide)).2.2.2.2 (fun k _ => rfl)

theorem dotProduct_cons (x y : ℚ) (a b : List ℚ) :
    dotProduct (x :: a) (y :: b) = x * y + dotProduct a b := by
  simp [dotProduct]

theorem sumSquares_cons (x : ℚ) (a : List ℚ) :
    sumSquares (x :: a) = x * x + sumSquares a := by
  simp [sumSquares]

theorem sumSquares_nonneg (a : List ℚ) : 0 ≤ sumSquares a := by
  induction a with
  | nil => simp [sumSquares]
  | cons x a ih =>
    rw [sumSquares_cons]
    have := mul_self_nonneg x
    linarith

theorem list_cauchy_schwarz : ∀ (a b : List ℚ),
    dotProduct a b ^ 2 ≤ sumSquares a * sumSquares b := by
  intro a
  induction a with
  | nil =>
    intro b
    have := sumSquares_nonneg b
    simp [dotProduct, sumSquares]
  | cons x a ih =>
    intro b
    cases b with
    | nil =>
      have hx := sumSquares_nonneg (x :: a)
      simp [dotProduct, sumSquares]
    | cons y b =>
      have hA := sumSquares_nonneg a
      have hB := sumSquares_nonneg b
      have ihd := ih b
      rw [dotProduct_cons, sumSquares_cons, sumSquares_cons]
      by_cases hB0 : sumSquares b = 0
      · have hd2 : dotProduct a b ^ 2 = 0 := by
          have h1 := sq_nonneg (dotProduct a b)
          nlinarith
        have hd : dotProduct a b = 0 := sq_eq_zero_iff.mp hd2
        rw [hd, hB0]
        nlinarith [mul_nonneg hA (sq_nonneg y)]
      · have hBpos : 0 < sumSquares b := lt_of_le_of_ne hB (Ne.symm hB0)
        have h2 := sq_nonneg (x * sumSquares b - y * dotProduct a b)
        have h1 : 0 ≤ (y * y + sumSquares b) *
            (sumSquares a * sumSquares b - dotProduct a b ^ 2) :=
          mul_nonneg (by nlinarith [sq_nonneg y]) (by linarith)
        nlinarith [hBpos, h1, h2]

theorem cosine_similarity_bound (a b : Option (List ℚ)) :
    -1 ≤ cosine_similarity a b ∧ cosine_similarity a b ≤ 1 := by
  cases a with
  | none => simp [cosine_similarity]
  | some va =>
    cases b with
    | none => simp [cosine_similarity]
    | some vb =>
      simp only [cosine_similarity]
      split
      · norm_num
      · split
        next hmag => norm_num
        next hmag =>
          push_neg at hmag
          obtain ⟨ha, hb⟩ := hmag
          have hA : (0 : ℝ) ≤ (sumSquares va : ℝ) := by
            exact_mod_cast sumSquares_nonneg va
          have hma : 0 < Real.sqrt (sumSquares va : ℝ) :=
            lt_of_le_of_ne (Real.sqrt_nonneg _) (Ne.symm ha)
          have hmb : 0 < Real.sqrt (sumSquares vb : ℝ) :=
            lt_of_le_of_ne (Real.sqrt_nonneg _) (Ne.symm hb)
          have hpos : 0 < Real.sqrt (sumSquares va : ℝ) * Real.sqrt (sumSquares vb : ℝ) :=
            mul_pos hma hmb
          have hd2 : ((dotProduct va vb : ℝ)) ^ 2 ≤ (sumSquares va : ℝ) * (sumSquares vb : ℝ) := by
            exact_mod_cast list_cauchy_schwarz va vb
          have habs : |(dotProduct va vb : ℝ)| ≤
              Real.sqrt (sumSquares va : ℝ) * Real.sqrt (sumSquares vb : ℝ) := by
            rw [← Real.sqrt_sq_eq_abs, ← Real.sqrt_mul hA]
            exact Real.sqrt_le_sqrt hd2
          obtain ⟨hlo, hhi⟩ := abs_le.mp habs
          constructor
          · rw [le_div_iff hpos]
            linarith
          · rw [div_le_one hpos]
            exact hhi

/-- C10: `cosine_similarity` is a total function: it returns `0.0` when
either argument is `None`, when the vector lengths differ, or when
either vector has zero magnitude, and in every case the result lies in
`[-1, 1]` (by Cauchy–Schwarz in the non-degenerate branch). -/
theorem c10_cosine_similarity_total_and_bounded (a b : Option (List ℚ)) :
    ((a = none ∨ b = none) → cosine_similarity a b = 0) ∧
    (∀ va vb, a = some va → b = some vb → va.length ≠ vb.length →
      cosine_similarity a b = 0) ∧
    (∀ va vb, a = some va → b = some vb →
      (Real.sqrt (sumSquares va : ℝ) = 0 ∨ Real.sqrt (sumSquares vb : ℝ) = 0) →
      cosine_similarity a b = 0) ∧
    -1 ≤ cosine_similarity a b ∧ cosine_similarity a b ≤ 1 := by
  refine ⟨?_, ?_, ?_, cosine_similarity_bound a b⟩
  · rintro (rfl | rfl)
    · simp [cosine_similarity]
    · cases a <;> simp [cosine_similarity]
  · rintro va vb rfl rfl hlen
    simp [cosine_similarity, hlen]
  · rintro va vb rfl rfl hmag
    simp only [cosine_similarity]
    split
    next => rfl
    next => rfl

/-- Witness for C10: vectors of different lengths score `0.0`, and the
score of `[1, 2]` against `[2, 1]` is within the bounds. -/
theorem c10_witness :
    cosine_similarity (some [1, 2]) (some [3]) = 0 ∧
    -1 ≤ cosine_similarity (some [1, 2]) (some [2, 1]) := by
  constructor
  · exact (c10_cosine_similarity_total_and_bounded (some [1, 2]) (some [3])).2.1
      [1, 2] [3] rfl rfl (by decide)
  · exact (c10_cosine_similarity_total_and_bounded (some [1, 2]) (some [2, 1])).2.2.2.1

theorem forgetUpdate_fields (m : Memory) (reason : Option String) :
    (forgetUpdate m reason).is_archived = true ∧
    (forgetUpdate m reason).id = m.id ∧
    (forgetUpdate m reason).instance_id = m.instance_id ∧
    (forgetUpdate m reason).project = m.project ∧
    (forgetUpdate m reason).memory_type = m.memory_type ∧
    (forgetUpdate m reason).subject = m.subject ∧
    (forgetUpdate m reason).content = m.content ∧
    (forgetUpdate m reason).keywords = m.keywords ∧
    (forgetUpdate m reason).tags = m.tags ∧
    (forgetUpdate m reason).importance = m.importance ∧
    (forgetUpdate m reason).embedding = m.embedding := by
  unfold forgetUpdate
  split
  · exact ⟨rfl, rfl, rfl, rfl, rfl, rfl, rfl, rfl, rfl, rfl, rfl⟩
  · split
    · exact ⟨rfl, rfl, rfl, rfl, rfl, rfl, rfl, rfl, rfl, rfl, rfl⟩
    · exact ⟨rfl, rfl, rfl, rfl, rfl, rfl, rfl, rfl, rfl, rfl, rfl⟩

theorem forget_db_of_found (db : List Memory) (memory_id : Int) (reason : Option String)
    (m : Memory) (hm : db.find? (fun x => x.id == memory_id) = some m) :
    (forget db memory_id reason).1 =
      replaceFirst (fun x => x.id == memory_id) (fun x => forgetUpdate x reason) db := by
  simp [forget, hm]

theorem archived_append_ne (s r : String) : s ++ "\n[ARCHIVED: " ++ r ++ "]" ≠ s := by
  intro h
  have hlen := congrArg String.length h
  have h12 : ("\n[ARCHIVED: " : String).length = 12 := rfl
  have h1 : ("]" : String).length = 1 := rfl
  simp only [String.length_append, h12, h1] at hlen
  omega

theorem archived_append_ne_empty (s r : String) :
    s ++ "\n[ARCHIVED: " ++ r ++ "]" ≠ "" := by
  intro h
  have hlen := congrArg String.length h
  have h12 : ("\n[ARCHIVED: " : String).length = 12 := rfl
  have h1 : ("]" : String).length = 1 := rfl
  have h0 : ("" : String).length = 0 := rfl
  simp only [String.length_append, h12, h1, h0] at hlen
  omega

theorem forgetUpdate_sc_of_truthy (m : Memory) (r : String) (hr : r ≠ "")
    (hsc : pyTruthyStr m.source_context = true) :
    (forgetUpdate m (some r)).source_context =
      some (m.source_context.getD "" ++ "\n[ARCHIVED: " ++ r ++ "]") := by
  have hcond : (pyTruthyStr (some r) && pyTruthyStr m.source_context) = true := by
    rw [Bool.and_eq_true]
    exact ⟨by simp [pyTruthyStr, hr], hsc⟩
  unfold forgetUpdate
  rw [if_pos hcond]
  rfl

theorem forgetUpdate_sc_truthy_after (m : Memory) (r : String) (hr : r ≠ "") :
    pyTruthyStr (forgetUpdate m (some r)).source_context = true := by
  unfold forgetUpdate
  by_cases h1 : (pyTruthyStr (some r) && pyTruthyStr m.source_context) = true
  · rw [if_pos h1]
    show pyTruthyStr (some (m.source_context.getD "" ++ "\n[ARCHIVED: " ++ r ++ "]")) = true
    simp only [pyTruthyStr, ne_eq, decide_eq_true_eq]
    exact archived_append_ne_empty _ r
  · rw [if_neg h1, if_pos (by simp [pyTruthyStr, hr])]
    show pyTruthyStr (some ("[ARCHIVED: " ++ r ++ "]")) = true
    simp only [pyTruthyStr, ne_eq, decide_eq_true_eq]
    intro hcontra
    have hlen := congrArg String.length hcontra
    have h11 : ("[ARCHIVED: " : String).length = 11 := rfl
    have h1l : ("]" : String).length = 1 := rfl
    have h0 : ("" : String).length = 0 := rfl
    simp only [String.length_append, h11, h1l, h0] at hlen
    omega

/-- C7 counterexample: `forget(1, "duplicate")` applied twice to a store
whose memory 1 has no prior `source_context` leaves a different store
than applying it once — the second call appends a second
`[ARCHIVED: duplicate]` marker. -/
theorem c7_cex :
    (forget (forget [memNoEmb] 1 (some "duplicate")).1 1 (some "duplicate")).1 ≠
      (forget [memNoEmb] 1 (some "duplicate")).1 := by decide

/-- C7 (amended): applying `forget(id, reason)` twice keeps the memory
archived and leaves every stored field unchanged except
`source_context`: when `reason` is not supplied (Python-falsy) the second
call is a strict no-op on the row, but when a non-empty `reason` is given
the second call appends a further `[ARCHIVED: reason]` marker, so
`source_context` differs from the once-forgotten state. -/
theorem c7_forget_twice (db : List Memory) (memory_id : Int) (reason : Option String)
    (m : Memory) (hm : db.find? (fun x => x.id == memory_id) = some m) :
    (forget (forget db memory_id reason).1 memory_id reason).1.find?
        (fun x => x.id == memory_id) =
      some (forgetUpdate (forgetUpdate m reason) reason) ∧
    (forgetUpdate (forgetUpdate m reason) reason).is_archived = true ∧
    (pyTruthyStr reason = false →
      forgetUpdate (forgetUpdate m reason) reason = forgetUpdate m reason) ∧
    (∀ r, reason = some r → r ≠ "" →
      (forgetUpdate (forgetUpdate m reason) reason).source_context ≠
        (forgetUpdate m reason).source_context) ∧
    (forgetUpdate (forgetUpdate m reason) reason).id = m.id ∧
    (forgetUpdate (forgetUpdate m reason) reason).subject = m.subject ∧
    (forgetUpdate (forgetUpdate m reason) reason).content = m.content ∧
    (forgetUpdate (forgetUpdate m reason) reason).embedding = m.embedding ∧
    (forgetUpdate (forgetUpdate m reason) reason).importance = m.importance := by
  obtain ⟨ha1, hid1, _, _, _, hsub1, hcont1, _, _, himp1, hemb1⟩ :=
    forgetUpdate_fields m reason
  obtain ⟨ha2, hid2, _, _, _, hsub2, hcont2, _, _, himp2, hemb2⟩ :=
    forgetUpdate_fields (forgetUpdate m reason) reason
  have hpm := List.find?_some hm
  have hp1 : ((fun x : Memory => x.id == memory_id) (forgetUpdate m reason)) = true := by
    show ((forgetUpdate m reason).id == memory_id) = true
    rw [hid1]
    exact hpm
  have hp2 : ((fun x : Memory => x.id == memory_id)
      (forgetUpdate (forgetUpdate m reason) reason)) = true := by
    show ((forgetUpdate (forgetUpdate m reason) reason).id == memory_id) = true
    rw [hid2]
    exact hp1
  have hf₁ : (forget db memory_id reason).1.find? (fun x => x.id == memory_id) =
      some (forgetUpdate m reason) := by
    rw [forget_db_of_found db memory_id reason m hm]
    exact find?_replaceFirst _ _ db m hm hp1
  refine ⟨?_, ha2, ?_, ?_, hid2.trans hid1, hsub2.trans hsub1, hcont2.trans hcont1,
    hemb2.trans hemb1, himp2.trans himp1⟩
  · rw [forget_db_of_found _ memory_id reason _ hf₁]
    exact find?_replaceFirst _ _ _ _ hf₁ hp2
  · intro hfalse
    show forgetUpdate (forgetUpdate m reason) reason = forgetUpdate m reason
    unfold forgetUpdate
    simp [hfalse]
  · intro r hr hrne
    subst hr
    have ht := forgetUpdate_sc_truthy_after m r hrne
    rw [forgetUpdate_sc_of_truthy (forgetUpdate m (some r)) r hrne ht]
    cases hsc : (forgetUpdate m (some r)).source_context with
    | none => rw [hsc] at ht; simp [pyTruthyStr] at ht
    | some s =>
      simp only [Option.getD_some, ne_eq, Option.some.injEq]
      exact archived_append_ne s r

/-- Witness for C7: forgetting memory 1 twice without a reason leaves the
row exactly as the first call did. -/
theorem c7_witness :
    forgetUpdate (forgetUpdate memNoEmb none) none = forgetUpdate memNoEmb none :=
  (c7_forget_twice [memNoEmb] 1 none memNoEmb (by decide)).2.2.1 rfl


theorem mark_db_of_found (db : List HandoffMessage) (instances : List String)
    (mid : Int) (r : String) (t : Nat) (hr : instances.contains r = true)
    (m : HandoffMessage) (hm : db.find? (fun x => x.id == mid) = some m) :
    (mark_handoff_read db instances mid r t).1 =
      replaceFirst (fun x => x.id == mid)
        (fun x => { x with read_at := some t, read_by := some r }) db ∧
    (mark_handoff_read db instances mid r t).2 = .ok "Marked read" := by
  have hmem : r ∈ instances := List.elem_iff.mp hr
  simp [mark_handoff_read, hm, hmem]

/-- C8 counterexample: a second `mark_handoff_read` on an already-read
message is not a no-op on `read_at` — marking message 7 at time 100 and
again at time 200 leaves `read_at = 200`, not the timestamp written by
the first reader. -/
theorem c8_cex :
    ¬ ((mark_handoff_read (mark_handoff_read [msgUnread] ["desktop", "code"] 7 "desktop" 100).1
          ["desktop", "code"] 7 "code" 200).1.map (fun x => x.read_at) =
        (mark_handoff_read [msgUnread] ["desktop", "code"] 7 "desktop" 100).1.map
          (fun x => x.read_at)) := by decide

/-- C8 (amended): a second successful `mark_handoff_read` on the same
message overwrites both `read_at` (with the clock of the later call) and
`read_by` (with the later reader) — last writer wins — and the message
remains in the read state; the call still reports success. -/
theorem c8_mark_read_last_writer_wins (db : List HandoffMessage) (instances : List String)
    (mid : Int) (r₁ r₂ : String) (t₁ t₂ : Nat)
    (h₁ : instances.contains r₁ = true) (h₂ : instances.contains r₂ = true)
    (m : HandoffMessage) (hm : db.find? (fun x => x.id == mid) = some m) :
    (mark_handoff_read (mark_handoff_read db instances mid r₁ t₁).1
        instances mid r₂ t₂).1.find? (fun x => x.id == mid) =
      some { m with read_at := some t₂, read_by := some r₂ } ∧
    (mark_handoff_read (mark_handoff_read db instances mid r₁ t₁).1
        instances mid r₂ t₂).2 = .ok "Marked read" := by
  have hpm := List.find?_some hm
  have hid1 : ((fun x : HandoffMessage => x.id == mid)
      ({ m with read_at := some t₁, read_by := some r₁ })) = true := by
    show (m.id == mid) = true
    exact hpm
  obtain ⟨e₁, _⟩ := mark_db_of_found db instances mid r₁ t₁ h₁ m hm
  have hf₁ : (mark_handoff_read db instances mid r₁ t₁).1.find? (fun x => x.id == mid) =
      some { m with read_at := some t₁, read_by := some r₁ } := by
    rw [e₁]
    exact find?_replaceFirst _ _ db m hm hid1
  obtain ⟨e₂, hok⟩ := mark_db_of_found _ instances mid r₂ t₂ h₂ _ hf₁
  have hid2 : ((fun x : HandoffMessage => x.id == mid)
      ({ ({ m with read_at := some t₁, read_by := some r₁ } : HandoffMessage) with
          read_at := some t₂, read_by := some r₂ })) = true := by
    show (m.id == mid) = true
    exact hpm
  constructor
  · rw [e₂]
    exact find?_replaceFirst (fun x => x.id == mid)
      (fun x => { x with read_at := some t₂, read_by := some r₂ }) _
      ({ m with read_at := some t₁, read_by := some r₁ }) hf₁ hid2
  · exact hok

/-- Witness for C8: the concrete double-mark of message 7 ends with the
second reader and the second timestamp. -/
theorem c8_witness :
    (mark_handoff_read (mark_handoff_read [msgUnread] ["desktop", "code"] 7 "desktop" 100).1
        ["desktop", "code"] 7 "code" 200).1.find? (fun x => x.id == 7) =
      some { msgUnread with read_at := some 200, read_by := some "code" } :=
  (c8_mark_read_last_writer_wins [msgUnread] ["desktop", "code"] 7 "desktop" "code" 100 200
    (by decide) (by decide) msgUnread (by decide)).1


/-- C2 (code defect): whenever the auto-link pass of `remember` runs —
auto-linking requested and an embedding present — it raises
`KeyError: link_threshold`, because `get_auto_link_config` returns the
keys `{enabled, similarity_threshold, max_links, same_project_only,
classify_edges, classification_model}` while `remember` subscripts
`link_threshold` / `suggest_threshold` / `max_suggestions`; this holds
for the explicit `auto_link=True` override and for the default (enabled)
configuration alike. Moreover the tiering code caps only the suggest
tier: with six candidates at or above the threshold its auto tier holds
six entries, although the default `max_links` is 5 — no `max_links` cap
is ever applied. -/
theorem c2_auto_link_pass_keyerror_and_uncapped :
    (∀ (config : ConfigModel) (embedding : List ℚ) (new_id : Int)
       (new_subject : Option String) (iid proj : String)
       (findSimilar : Option String → ℚ → List (Int × ℚ))
       (fetchSubjects : List Int → List (Int × Option String))
       (clsModel : Option String) (clsOutcome : Int → Except Unit String)
       (supersedes_id : Option Int),
      auto_link_pass config (some true) (some embedding) new_id new_subject iid proj
        findSimilar fetchSubjects clsModel clsOutcome supersedes_id =
        .error "KeyError: link_threshold") ∧
    (∀ (embedding : List ℚ) (new_id : Int) (new_subject : Option String)
       (iid proj : String) (findSimilar : Option String → ℚ → List (Int × ℚ))
       (fetchSubjects : List Int → List (Int × Option String))
       (clsModel : Option String) (clsOutcome : Int → Except Unit String)
       (supersedes_id : Option Int),
      auto_link_pass ⟨[], []⟩ none (some embedding) new_id new_subject iid proj
        findSimilar fetchSubjects clsModel clsOutcome supersedes_id =
        .error "KeyError: link_threshold") ∧
    (∀ config : ConfigModel,
      (get_auto_link_config config).lookup "link_threshold" = none ∧
      (get_auto_link_config config).lookup "max_suggestions" = none) ∧
    (get_auto_link_config ⟨[], []⟩).lookup "max_links" = some (.vN 5) ∧
    (tierSplit sixCands (3 / 4) (1 / 2) 3).1.length = 6 := by
  have hfilter : sixCands.filter (fun p => decide ((3 : ℚ) / 4 ≤ p.2)) = sixCands := by
    rw [List.filter_eq_self]
    intro a ha
    fin_cases ha <;> norm_num [sixCands]
  refine ⟨?_, ?_, ?_, by decide, ?_⟩
  · intro config embedding new_id new_subject iid proj fs fsub cm co sid
    rfl
  · intro embedding new_id new_subject iid proj fs fsub cm co sid
    rfl
  · intro config
    exact ⟨rfl, rfl⟩
  · show (sixCands.filter (fun p => decide ((3 : ℚ) / 4 ≤ p.2))).length = 6
    rw [hfilter]
    rfl

/-- C3 (code defect): the edge-creation loop of `remember` calls the
single-pair classifier `classify_edge_type` once per auto-tier
candidate — ten generation requests for ten candidates, not one batched
`classify_edge_types_batch` call (which no code in the repository
invokes) — and the pass it belongs to cannot even reach it, raising
`KeyError: link_threshold` first. -/
theorem c3_per_pair_classification_not_batched :
    (∀ clsOutcome : Nat → Except Unit String,
      (autoLinkCreateEdges 99 (some "new subject") "desktop" tenPairs tenSubjects true none
        (some "qwen3:1.7b") (fun tid => clsOutcome tid.toNat)).2.2 = 10) ∧
    (∀ (config : ConfigModel) (findSimilar : Option String → ℚ → List (Int × ℚ))
       (fetchSubjects : List Int → List (Int × Option String))
       (clsOutcome : Int → Except Unit String) (supersedes_id : Option Int),
      auto_link_pass config (some true) (some [1]) 99 (some "new subject") "desktop" "life"
        findSimilar fetchSubjects (some "qwen3:1.7b") clsOutcome supersedes_id =
        .error "KeyError: link_threshold") := by
  constructor
  · intro clsOutcome
    rfl
  · intro config fs fsub co sid
    rfl


/-- C4 (code defect): `recall` never consults `is_synthesis_enabled`:
its result is identical whatever `synthesis.enabled` holds (the
configuration is simply unread), and with `synthesize=true`, an
available LLM, and `synthesis.enabled = false` it still returns the
synthesized `{summary, count, search_method, memory_ids}` shape instead
of the raw `{memories, count, search_method}` shape the flag is
documented to force. -/
theorem c4_recall_ignores_synthesis_flag :
    is_synthesis_enabled ⟨[("enabled", false)], []⟩ = false ∧
    (∀ (b₁ b₂ : Bool) (args : RecallArgs) (db : List Memory)
       (qe : Option (List ℚ)) (la : Bool) (gen : Option String),
      memory_recall ⟨[("enabled", b₁)], []⟩ args db qe la gen =
        memory_recall ⟨[("enabled", b₂)], []⟩ args db qe la gen) ∧
    memory_recall ⟨[("enabled", false)], []⟩ recallArgsC4 [memNoEmb] none true
        (some "SYNTHESIZED REPORT") =
      .summary "SYNTHESIZED REPORT" 1 "keyword (fallback)" [1] := by
  exact ⟨rfl, fun b₁ b₂ args db qe la gen => rfl, rfl⟩

theorem recallScore_of_no_embedding (q : List ℚ) (m : Memory) (h : m.embedding = none) :
    recallScore q m = -1 := by
  simp [recallScore, h]

theorem cosine_opposite_unit : cosine_similarity (some [(1 : ℚ)]) (some [(-1 : ℚ)]) = -1 := by
  simp only [cosine_similarity]
  rw [if_neg (by simp)]
  rw [show sumSquares [(1 : ℚ)] = 1 by norm_num [sumSquares],
      show sumSquares [(-1 : ℚ)] = 1 by norm_num [sumSquares],
      show dotProduct [(1 : ℚ)] [(-1 : ℚ)] = -1 by norm_num [dotProduct]]
  norm_num [Real.sqrt_one]

theorem semanticRank_tie :
    semanticRank [1] [memNoEmb, memOppEmb] = [(memNoEmb, -1), (memOppEmb, -1)] := by
  have h1 : recallScore [1] memNoEmb = -1 := recallScore_of_no_embedding [1] memNoEmb rfl
  have h2 : recallScore [1] memOppEmb = -1 := by
    show cosine_similarity (some [(1 : ℚ)]) (some [(-1 : ℚ)]) = -1
    exact cosine_opposite_unit
  simp only [semanticRank, List.map_cons, List.map_nil, h1, h2]
  simp only [List.insertionSort, List.orderedInsert]
  rw [if_pos (le_refl (-1 : ℝ))]

/-- C5 counterexample: with query embedding `[1]`, a store holding a
memory without an embedding (scored exactly `-1.0`) followed by a memory
whose embedding is `[-1]` (cosine similarity exactly `-1.0`), the stable
descending sort returns the no-embedding memory FIRST — before a memory
that has an embedding — refuting the claim that every returned memory
lacking an embedding appears after all returned memories that have one. -/
theorem c5_cex :
    (semanticTop [1] [memNoEmb, memOppEmb] 2).map Prod.fst = [memNoEmb, memOppEmb] ∧
    memNoEmb.embedding = none ∧
    memOppEmb.embedding = some [-1] ∧
    memNoEmb ≠ memOppEmb := by
  refine ⟨?_, rfl, rfl, by decide⟩
  rw [semanticTop, semanticRank_tie]
  rfl

/-- C5 (amended): on the semantic path every filter-qualifying memory
without an embedding is scored exactly `-1.0`; the scored rows are
sorted by similarity descending (a stable sort) and the first `limit`
are returned; consequently every returned memory lacking an embedding
appears after every returned memory whose similarity is strictly
greater than `-1.0`. (An embedded memory whose cosine similarity is
exactly `-1.0` can tie with — and, arriving earlier in the scan order,
precede — a no-embedding memory, as the counterexample shows.) -/
theorem c5_semantic_ranking (q : List ℚ) (filtered : List Memory) (limit : Nat) :
    (∀ m ∈ filtered, m.embedding = none → recallScore q m = -1) ∧
    (∀ p ∈ semanticTop q filtered limit, p.2 = recallScore q p.1) ∧
    List.Sorted (fun p₁ p₂ : Memory × ℝ => p₂.2 ≤ p₁.2) (semanticTop q filtered limit) ∧
    semanticTop q filtered limit = (semanticRank q filtered).take limit ∧
    (∀ i j : Fin (semanticTop q filtered limit).length,
      ((semanticTop q filtered limit).get i).1.embedding = none →
      -1 < ((semanticTop q filtered limit).get j).2 → (j : Nat) < (i : Nat)) := by
  haveI htot : IsTotal (Memory × ℝ) (fun p₁ p₂ => p₂.2 ≤ p₁.2) :=
    ⟨fun a b => le_total b.2 a.2⟩
  haveI htrans : IsTrans (Memory × ℝ) (fun p₁ p₂ => p₂.2 ≤ p₁.2) :=
    ⟨fun a b c hab hbc => le_trans hbc hab⟩
  have hmem : ∀ p ∈ semanticTop q filtered limit, p.2 = recallScore q p.1 := by
    intro p hp
    have hp₂ : p ∈ semanticRank q filtered := List.take_subset limit _ hp
    have hp₃ : p ∈ filtered.map (fun m => (m, recallScore q m)) :=
      (List.perm_insertionSort _ _).mem_iff.mp hp₂
    obtain ⟨m, _, rfl⟩ := List.mem_map.mp hp₃
    rfl
  have hsorted : List.Sorted (fun p₁ p₂ : Memory × ℝ => p₂.2 ≤ p₁.2)
      (semanticTop q filtered limit) :=
    (List.sorted_insertionSort _ _).sublist (List.take_sublist _ _)
  refine ⟨fun m _ h => recallScore_of_no_embedding q m h, hmem, hsorted, rfl, ?_⟩
  intro i j hinone hjgt
  by_contra hji
  push_neg at hji
  have hscore_i : ((semanticTop q filtered limit).get i).2 = -1 := by
    rw [hmem _ (List.get_mem _ i.1 i.2)]
    exact recallScore_of_no_embedding q _ hinone
  rcases lt_or_eq_of_le hji with hlt | heq
  · have := List.pairwise_iff_get.mp hsorted ⟨i, i.2⟩ ⟨j, j.2⟩ hlt
    rw [hscore_i] at this
    exact absurd (lt_of_lt_of_le hjgt this) (lt_irrefl _)
  · have : ((semanticTop q filtered limit).get j).2 = -1 := by
      have hij : i = j := Fin.ext heq
      rw [← hij, hscore_i]
    rw [this] at hjgt
    exact absurd hjgt (lt_irrefl _)

/-- Witness for C5: the no-embedding memory in a one-row store is scored
exactly `-1.0`. -/
theorem c5_witness : recallScore [1] memNoEmb = -1 :=
  (c5_semantic_ranking [1] [memNoEmb] 2).1 memNoEmb (List.mem_singleton.mpr rfl) rfl

/-- C9: `get_memories_by_ids` returns `count` equal to the number of
rows actually found, and `not_found` equal to the requested ids minus
the found ids, in request order; in particular, when every requested id
is present the `not_found` list is empty (and the source then omits the
key). Holds in both the raw and the synthesized result shapes. -/
theorem c9_get_memories_by_ids_counts (db : List Memory) (memory_ids : List Int)
    (synthesize : Bool) (llmAvailable : Bool) (gen : Option String) (now : Nat) :
    (get_memories_by_ids db memory_ids synthesize llmAvailable gen now).2.countOf =
      (db.filter (fun m => memory_ids.contains m.id)).length ∧
    (get_memories_by_ids db memory_ids synthesize llmAvailable gen now).2.notFoundOf =
      memory_ids.filter (fun mid => !(db.any (fun m => m.id == mid))) ∧
    ((∀ mid ∈ memory_ids, db.any (fun m => m.id == mid) = true) →
      (get_memories_by_ids db memory_ids synthesize llmAvailable gen now).2.notFoundOf = []) := by
  have hids : ((db.filter (fun m => memory_ids.contains m.id)).map (bumpAccess now)).map
        (fun m => m.id) =
      (db.filter (fun m => memory_ids.contains m.id)).map (fun m => m.id) := by
    simp [List.map_map, Function.comp, bumpAccess]
  have hfound : ∀ mid ∈ memory_ids,
      (((db.filter (fun m => memory_ids.contains m.id)).map (bumpAccess now)).map
        (fun m => m.id)).contains mid = db.any (fun m => m.id == mid) := by
    intro mid hmid
    rw [hids, Bool.eq_iff_iff]
    simp only [List.contains_iff_exists_mem_beq, List.any_eq_true, List.mem_map,
      List.mem_filter, beq_iff_eq, List.elem_iff]
    constructor
    · rintro ⟨x, ⟨m, ⟨hmdb, hin⟩, rfl⟩, hbeq⟩
      exact ⟨m, hmdb, by simpa using hbeq.symm⟩
    · rintro ⟨m, hmdb, hmid2⟩
      exact ⟨m.id, ⟨m, ⟨hmdb, by rw [hmid2]; simpa using hmid⟩, rfl⟩, by simp [hmid2]⟩
  have hnf : (get_memories_by_ids db memory_ids synthesize llmAvailable gen now).2.notFoundOf =
      memory_ids.filter (fun mid => !(db.any (fun m => m.id == mid))) := by
    have hcongr : memory_ids.filter
          (fun mid => !((((db.filter (fun m => memory_ids.contains m.id)).map
            (bumpAccess now)).map (fun m => m.id)).contains mid)) =
        memory_ids.filter (fun mid => !(db.any (fun m => m.id == mid))) := by
      apply List.filter_congr'
      intro mid hmid
      rw [hfound mid hmid]
    simp only [get_memories_by_ids]
    split
    · split
      · simpa [ByIdsResult.notFoundOf, List.map_map] using hcongr
      · simpa [ByIdsResult.notFoundOf, List.map_map] using hcongr
    · simpa [ByIdsResult.notFoundOf, List.map_map] using hcongr
  refine ⟨?_, hnf, ?_⟩
  · simp only [get_memories_by_ids]
    split
    · split
      · simp [ByIdsResult.countOf]
      · simp [ByIdsResult.countOf]
    · simp [ByIdsResult.countOf]
  · intro hall
    rw [hnf]
    rw [List.filter_eq_nil_iff]
    intro mid hmid
    simp [hall mid hmid]

/-- Witness for C9: requesting ids `[1, 2]` against a store holding both
rows yields an empty `not_found`. -/
theorem c9_witness :
    (get_memories_by_ids [memNoEmb, memOppEmb] [1, 2] false true none 500).2.notFoundOf
      = [] :=
  (c9_get_memories_by_ids_counts [memNoEmb, memOppEmb] [1, 2] false true none 500).2.2
    (by decide)

end MemoryPalace
